/-
Verification of the price-resolution core of the XScraper repository
(kol_analysis/src/analyze_price.py) against its natural-language
specification.

The Python code is shallowly embedded below:
* timestamps are rationals (seconds since epoch); upstream millisecond
  fields are kept in milliseconds and divided by 1000 exactly where the
  source does;
* JSON dictionary fields that the source reads with `.get(...)` (and may
  therefore be absent or null) are `Option` fields;
* every network interaction is an input from an `Env` record, where
  `none` stands for any soft failure (missing API key handled separately,
  HTTP non-200, transport error, empty `data`), exactly the cases the
  source collapses to "no data";
* `get_price_at_time` additionally returns the list of network calls it
  issued, so ordering/absence of provider traffic is provable.
-/
import Mathlib

/-- Absolute value written exactly as an executable conditional, used to
embed the Python expression `abs((t1 - t2).total_seconds())`. -/
def absQ (x : ℚ) : ℚ := if x < 0 then -x else x

/-- Embeds the price-point dictionaries built inside
`PriceAnalyzer.get_price_at_time` and `get_cmc_historical_price`.  Fields a
given path leaves out of its dictionary are `none`, matching what a
downstream `.get` observes. -/
structure PricePoint where
  price_usd : Option ℚ
  price_native : Option ℚ
  liquidity_usd : Option ℚ
  volume_24h : Option ℚ
  market_cap : Option ℚ
  timestamp : ℚ
  data_source : String
deriving DecidableEq, Repr

/-- Embeds a DEXScreener pair dictionary as consumed by
`get_best_token_pair` and by the fallback path of `get_price_at_time`.
`pairCreatedAt` is in milliseconds as upstream delivers it; `none` means
the key is absent.  `liquidity_usd` embeds the usd field of the liquidity
dictionary (absent or null collapses to `none`), `volume_h24` embeds the
h24 field of the volume dictionary. -/
structure Pair where
  pairAddress : Option String
  chainId : Option String
  pairCreatedAt : Option ℚ
  liquidity_usd : Option ℚ
  priceUsd : Option ℚ
  priceNative : Option ℚ
  volume_h24 : Option ℚ
deriving DecidableEq, Repr

/-- Embeds the coercion `float(x.get(liquidity).get(usd, 0) or 0)`: an
absent or null liquidity counts as 0 in comparisons. -/
def liqOf (p : Pair) : ℚ := p.liquidity_usd.getD 0

/-- Embeds `int(x.get(pairCreatedAt, 0))`: an absent creation time counts
as epoch 0 in the fallback sort. -/
def createdOf (p : Pair) : ℚ := p.pairCreatedAt.getD 0

/-- The filter in `get_best_token_pair`: only pairs that carry a
`pairCreatedAt` key at all are compared against
`tweet_time + timedelta(hours=1)`. -/
def validAt (tweet_time : ℚ) (p : Pair) : Bool :=
  match p.pairCreatedAt with
  | some c => decide (c / 1000 ≤ tweet_time + 3600)
  | none => false

/-- Stable insertion step for the embedding of the stable Python
`sorted(..., key=...)`: an element goes before the first existing element
with a key that is not smaller. -/
def insertByLe (f : Pair → ℚ) (x : Pair) : List Pair → List Pair
  | [] => [x]
  | y :: ys => if f x ≤ f y then x :: y :: ys else y :: insertByLe f x ys

/-- Stable ascending sort by key, embedding `sorted(pairs, key=...)`. -/
def sortByKey (f : Pair → ℚ) (xs : List Pair) : List Pair :=
  xs.foldr (insertByLe f) []

/-- Embeds the Python `max(xs, key=f)`: scans left to right, keeps the
current maximum unless a strictly larger key appears, hence returns the
first of tied maxima; `none` only on the empty list. -/
def pyMaxBy (f : Pair → ℚ) : List Pair → Option Pair
  | [] => none
  | x :: xs => some (xs.foldl (fun b a => if f b < f a then a else b) x)

/-- Embeds `PriceAnalyzer.get_best_token_pair` from the point where the
pair list returned by `search_token` is in hand: empty list yields `None`;
otherwise filter by creation time, fall back to all pairs sorted by
ascending creation time when the filter is empty, and take the maximum by
liquidity. -/
def get_best_token_pair (pairs : List Pair) (tweet_time : ℚ) : Option Pair :=
  if pairs = [] then none
  else
    let valid := pairs.filter (validAt tweet_time)
    if valid = [] then pyMaxBy liqOf (sortByKey createdOf pairs)
    else pyMaxBy liqOf valid

/-- Embeds `PriceAnalyzer.get_cache_key`. -/
def get_cache_key (token pair_address timeframe : String) : String :=
  token ++ "_" ++ pair_address ++ "_" ++ timeframe

/-- The cache `self.price_cache`, a string-keyed dictionary. -/
abbrev PriceCache := List (String × PricePoint)

/-- Embeds `PriceAnalyzer.store_price_data`: `self.price_cache[key] = data`. -/
def store_price_data (cache : PriceCache) (token pair_address timeframe : String)
    (price_data : PricePoint) : PriceCache :=
  (get_cache_key token pair_address timeframe, price_data) ::
    cache.filter (fun kv => kv.1 ≠ get_cache_key token pair_address timeframe)

/-- Embeds `PriceAnalyzer.get_cached_price_data`: `self.price_cache.get(key)`. -/
def get_cached_price_data (cache : PriceCache) (token pair_address timeframe : String) :
    Option PricePoint :=
  (cache.find? (fun kv => kv.1 = get_cache_key token pair_address timeframe)).map Prod.snd

/-- A CoinMarketCap cryptocurrency-map entry: only its `id` field is
read, with `cmc_token.get(id)`. -/
structure CmcToken where
  id : Option ℤ
deriving DecidableEq, Repr

/-- The dictionary `get_cmc_historical_price` extracts from a CMC OHLCV
quote: `close`, `volume`, `market_cap`, each read with `.get`. -/
structure CmcQuote where
  close : Option ℚ
  volume : Option ℚ
  market_cap : Option ℚ
deriving DecidableEq, Repr

/-- A DEXScreener candle: `timestamp` (milliseconds, read with `[]`) and
`close` (read with `.get`). -/
structure Candle where
  timestamp : ℚ
  close : Option ℚ
deriving DecidableEq, Repr

/-- A DEXScreener history point: `timestamp` (milliseconds, read with
`[]`), the rest read with `.get`. -/
structure HistPoint where
  timestamp : ℚ
  priceUsd : Option ℚ
  priceNative : Option ℚ
  liquidityUsd : Option ℚ
  volumeUsd : Option ℚ
deriving DecidableEq, Repr

/-- One network request issued by `get_price_at_time`. -/
inductive NetCall where
  | cmcSearch
  | cmcHistorical
  | dexCandles
  | dexHistory
deriving DecidableEq, Repr

/-- The environment a single `get_price_at_time` call runs in: the clock
and what each upstream endpoint would deliver.  `none` is any soft
failure (non-200 status, transport error, exception, empty `data`), which
the source logs and treats as no data. -/
structure Env where
  now : ℚ
  has_key : Bool
  cmc_search : Option CmcToken
  cmc_historical : Option CmcQuote
  candles : Option (List Candle)
  history : Option (List HistPoint)
deriving Repr

/-- Python truthiness of an optional string (`if pair_address and chain_id`):
absent and empty strings are falsy. -/
def strTruthy : Option String → Bool
  | none => false
  | some s => !s.isEmpty

/-- The CoinMarketCap leg of `get_price_at_time` (lines 268-280):
`search_cmc_token`, then `get_cmc_historical_price` when a token with a
truthy `id` came back.  Without an API key both clients return before any
request; otherwise the search request is always issued and the historical
request only after a usable search result.  Returns the historical data
(or `none`) together with the requests issued. -/
def cmcStep (env : Env) : Option CmcQuote × List NetCall :=
  if env.has_key then
    match env.cmc_search with
    | some tok =>
      match tok.id with
      | some i =>
        if i = 0 then (none, [NetCall.cmcSearch])
        else (env.cmc_historical, [NetCall.cmcSearch, NetCall.cmcHistorical])
      | none => (none, [NetCall.cmcSearch])
    | none => (none, [NetCall.cmcSearch])
  else (none, [])

/-- The closest-element scan both DEXScreener branches run: start with
`min_time_diff = inf`, keep the element whose timestamp (milliseconds,
divided by 1000) is strictly closer to the target; ties keep the earlier
element.  Returns the element and its time delta in seconds. -/
def scanClosest (ts : α → ℚ) (target : ℚ) (l : List α) : Option (α × ℚ) :=
  l.foldl
    (fun acc c =>
      let d := absQ (ts c / 1000 - target)
      match acc with
      | none => some (c, d)
      | some (b, db) => if d < db then some (c, d) else some (b, db))
    none

/-- The candle branch of `get_price_at_time` (lines 292-327): on a
successful response with a non-empty `data` list, pick the closest candle
and accept it only within 43200 seconds; its dictionary sets both
`price_usd` and `price_native` to the `close` of the candle. -/
def candleResult (env : Env) (pair : Pair) (target_time : ℚ) : Option PricePoint :=
  env.candles.bind (fun l =>
    (scanClosest Candle.timestamp target_time l).bind (fun cd =>
      if cd.2 ≤ 43200 then
        some { price_usd := cd.1.close
               price_native := cd.1.close
               liquidity_usd := pair.liquidity_usd
               volume_24h := pair.volume_h24
               market_cap := none
               timestamp := cd.1.timestamp / 1000
               data_source := "dexscreener_candles" }
      else none))

/-- The history branch of `get_price_at_time` (lines 331-361): same
closest-point scan and 43200-second bound over the raw history series. -/
def historyResult (env : Env) (_pair : Pair) (target_time : ℚ) : Option PricePoint :=
  env.history.bind (fun l =>
    (scanClosest HistPoint.timestamp target_time l).bind (fun cd =>
      if cd.2 ≤ 43200 then
        some { price_usd := cd.1.priceUsd
               price_native := cd.1.priceNative
               liquidity_usd := cd.1.liquidityUsd
               volume_24h := cd.1.volumeUsd
               market_cap := none
               timestamp := cd.1.timestamp / 1000
               data_source := "dexscreener_historical" }
      else none))

/-- The early-return dictionary for a target time in the future
(lines 258-266). -/
def futurePoint (target_time : ℚ) : PricePoint :=
  { price_usd := none, price_native := none, liquidity_usd := none,
    volume_24h := none, market_cap := none, timestamp := target_time,
    data_source := "future_date" }

/-- The dictionary `get_cmc_historical_price` returns on success: it has
no `price_native` or `liquidity_usd` keys, and its timestamp is the
requested one. -/
def cmcPoint (q : CmcQuote) (target_time : ℚ) : PricePoint :=
  { price_usd := q.close, price_native := none, liquidity_usd := none,
    volume_24h := q.volume, market_cap := q.market_cap,
    timestamp := target_time, data_source := "coinmarketcap" }

/-- The final fallback dictionary (lines 364-371): the currently known
fields of the pair, stamped with the target time. -/
def currentPoint (pair : Pair) (target_time : ℚ) : PricePoint :=
  { price_usd := pair.priceUsd, price_native := pair.priceNative,
    liquidity_usd := pair.liquidity_usd, volume_24h := pair.volume_h24,
    market_cap := none, timestamp := target_time,
    data_source := "dexscreener_current" }

/-- Embeds `PriceAnalyzer.get_price_at_time` (lines 253-371), returning
the produced price point together with the network requests issued, in
order.  Future target: immediate return, no requests.  Otherwise the CMC
leg; on its failure, when `pairAddress` and `chainId` are truthy, the
candle request then (only on candle failure) the history request; the
current-price fallback touches the network no further. -/
def get_price_at_time (env : Env) (pair : Pair) (target_time : ℚ) :
    PricePoint × List NetCall :=
  if target_time > env.now then (futurePoint target_time, [])
  else
    match (cmcStep env).1 with
    | some q => (cmcPoint q target_time, (cmcStep env).2)
    | none =>
      if strTruthy pair.pairAddress && strTruthy pair.chainId then
        match candleResult env pair target_time with
        | some pp => (pp, (cmcStep env).2 ++ [NetCall.dexCandles])
        | none =>
          match historyResult env pair target_time with
          | some pp =>
            (pp, (cmcStep env).2 ++ [NetCall.dexCandles, NetCall.dexHistory])
          | none =>
            (currentPoint pair target_time,
              (cmcStep env).2 ++ [NetCall.dexCandles, NetCall.dexHistory])
      else (currentPoint pair target_time, (cmcStep env).2)

/-- The body of `get_price_at_time` contains no reference to
`self.price_cache`, `store_price_data` or `get_cached_price_data`, so the
state-threaded embedding of the method returns the analyzer cache
unchanged and never consults it. -/
def get_price_at_time_with_cache (cache : PriceCache) (env : Env) (pair : Pair)
    (target_time : ℚ) : (PricePoint × List NetCall) × PriceCache :=
  (get_price_at_time env pair target_time, cache)

/-- The analyzer-wide rate-limiter state: the single field
`self.last_request_time`, shared by every request of every provider. -/
structure LimiterState where
  last_request_time : ℚ
deriving DecidableEq, Repr

/-- Embeds `self.min_request_interval = 1.0`. -/
def min_request_interval : ℚ := 1

/-- Embeds `PriceAnalyzer.rate_limit` under an ideal clock: given the
current time, the sleep it performs and the state it leaves
(`self.last_request_time = time.time()` after the sleep). -/
def rate_limit (st : LimiterState) (now : ℚ) : ℚ × LimiterState :=
  let elapsed := now - st.last_request_time
  let sleepFor := if elapsed < min_request_interval
    then min_request_interval - elapsed else 0
  (sleepFor, { last_request_time := now + sleepFor })

/-- A rate-limited request on behalf of a named provider: the method takes
no provider argument and reads the shared timestamp, so the provider name
does not enter the computation. -/
def rate_limitCall (_provider : String) (st : LimiterState) (now : ℚ) :
    ℚ × LimiterState :=
  rate_limit st now

/-- Embeds `float(x or 0)` applied to an optional price: null collapses
to 0. -/
def effPrice (o : Option ℚ) : ℚ := o.getD 0

/-- Embeds the price-change expression of `analyze_tweet_impact`
(lines 440-442): the value `(post - first) / first * 100` when
`first > 0 and post > 0` and the source is not future_date, else `None`,
after both prices went through `float(... or 0)`. -/
def price_change (base later : PricePoint) : Option ℚ :=
  let fp := effPrice base.price_usd
  let lp := effPrice later.price_usd
  if 0 < fp ∧ 0 < lp ∧ later.data_source ≠ "future_date" then
    some ((lp - fp) / fp * 100)
  else none

/-- A well-formed pair context used in concrete evaluations. -/
def pairK : Pair :=
  { pairAddress := some "0xabc123", chainId := some "solana",
    pairCreatedAt := some 0, liquidity_usd := some 7,
    priceUsd := some 2, priceNative := some 3, volume_h24 := some 9 }

/-- An environment whose CoinMarketCap leg succeeds. -/
def envC1 : Env :=
  { now := 100, has_key := true, cmc_search := some { id := some 5 },
    cmc_historical := some { close := some 2, volume := some 3, market_cap := some 4 },
    candles := none, history := none }

/-- An environment where every upstream source fails. -/
def envAllFail : Env :=
  { now := 1000, has_key := false, cmc_search := none, cmc_historical := none,
    candles := none, history := none }

/-- Counterexample pair for C2: created 2 h after the reference time. -/
def cexOld : Pair :=
  { pairAddress := some "old", chainId := some "c", pairCreatedAt := some 7200000,
    liquidity_usd := some 10, priceUsd := none, priceNative := none, volume_h24 := none }

/-- Counterexample pair for C2: created 3 h after the reference time, with
the higher liquidity. -/
def cexNew : Pair :=
  { pairAddress := some "new", chainId := some "c", pairCreatedAt := some 10800000,
    liquidity_usd := some 1000, priceUsd := none, priceNative := none, volume_h24 := none }

/-- Spec example pair: created at T-2h (reference T = 1000000 s), $500. -/
def exP1 : Pair :=
  { pairAddress := some "p1", chainId := some "c", pairCreatedAt := some 992800000,
    liquidity_usd := some 500, priceUsd := none, priceNative := none, volume_h24 := none }

/-- Spec example pair: created at T-30m, $10000. -/
def exP2 : Pair :=
  { pairAddress := some "p2", chainId := some "c", pairCreatedAt := some 998200000,
    liquidity_usd := some 10000, priceUsd := none, priceNative := none, volume_h24 := none }

/-- Spec example pair: created at T+2h, $1000000. -/
def exP3 : Pair :=
  { pairAddress := some "p3", chainId := some "c", pairCreatedAt := some 1007200000,
    liquidity_usd := some 1000000, priceUsd := none, priceNative := none, volume_h24 := none }

/-- The three spec example pairs. -/
def exPairs : List Pair := [exP1, exP2, exP3]

/-- Base point with price $1. -/
def cpBase : PricePoint :=
  { price_usd := some 1, price_native := none, liquidity_usd := none,
    volume_24h := none, market_cap := none, timestamp := 0,
    data_source := "coinmarketcap" }

/-- Later point with a price equal to 0 from a non-future source. -/
def cpZero : PricePoint :=
  { price_usd := some 0, price_native := none, liquidity_usd := none,
    volume_24h := none, market_cap := none, timestamp := 86400,
    data_source := "dexscreener_current" }

/-- Later point with price $1.50 from a non-future source. -/
def cpLater : PricePoint :=
  { price_usd := some (3 / 2), price_native := none, liquidity_usd := none,
    volume_24h := none, market_cap := none, timestamp := 86400,
    data_source := "coinmarketcap" }

/-- Candle 20 h away from the target time 100000 s. -/
def cand20h : Candle := { timestamp := 172000000, close := some 11 }

/-- Candle 11 h away from the target time 100000 s. -/
def cand11h : Candle := { timestamp := 60400000, close := some 12 }

/-- Candle 1 h away from the target time 100000 s. -/
def cand1h : Candle := { timestamp := 103600000, close := some 42 }

/-- Candle 15 h away from the target time 100000 s. -/
def cand15h : Candle := { timestamp := 154000000, close := some 13 }

/-- Environment delivering candles at deltas 20 h, 11 h and 1 h. -/
def envC7 : Env :=
  { now := 10000000, has_key := false, cmc_search := none, cmc_historical := none,
    candles := some [cand20h, cand11h, cand1h], history := none }

/-- Environment delivering only candles at deltas 20 h and 15 h. -/
def envC7far : Env :=
  { now := 10000000, has_key := false, cmc_search := none, cmc_historical := none,
    candles := some [cand20h, cand15h], history := none }

/-- The point the 1 h candle produces for target time 100000 with `pairK`. -/
def ppC7 : PricePoint :=
  { price_usd := some 42, price_native := some 42, liquidity_usd := some 7,
    volume_24h := some 9, market_cap := none, timestamp := 103600,
    data_source := "dexscreener_candles" }

/-- C10 pair with no `pairCreatedAt` key and the lower liquidity. -/
def pNoCreated : Pair :=
  { pairAddress := some "n", chainId := some "c", pairCreatedAt := none,
    liquidity_usd := some 3, priceUsd := none, priceNative := none, volume_h24 := none }

/-- C10 pair created far after the reference time, higher liquidity, a
null liquidity sibling of nothing. -/
def pLate : Pair :=
  { pairAddress := some "m", chainId := some "c", pairCreatedAt := some 999999999999,
    liquidity_usd := some 7, priceUsd := none, priceNative := none, volume_h24 := none }

/-- The left fold inside `pyMaxBy` returns its accumulator or a list
element, never decreases the key, and dominates every list element. -/
theorem pyFold_spec (f : Pair → ℚ) (xs : List Pair) (x : Pair) :
    (xs.foldl (fun b a => if f b < f a then a else b) x = x ∨
      xs.foldl (fun b a => if f b < f a then a else b) x ∈ xs) ∧
    f x ≤ f (xs.foldl (fun b a => if f b < f a then a else b) x) ∧
    ∀ q ∈ xs, f q ≤ f (xs.foldl (fun b a => if f b < f a then a else b) x) := by
  induction xs generalizing x with
  | nil => simp
  | cons a xs ih =>
    simp only [List.foldl_cons]
    by_cases h : f x < f a
    · rw [if_pos h]
      obtain ⟨hmem, hacc, hall⟩ := ih a
      refine ⟨?_, ?_, ?_⟩
      · rcases hmem with h1 | h1
        · exact Or.inr (by simp [h1])
        · exact Or.inr (List.mem_cons_of_mem _ h1)
      · exact le_trans (le_of_lt h) hacc
      · intro q hq
        rcases List.mem_cons.mp hq with h1 | h1
        · rw [h1]; exact hacc
        · exact hall q h1
    · rw [if_neg h]
      obtain ⟨hmem, hacc, hall⟩ := ih x
      refine ⟨?_, hacc, ?_⟩
      · rcases hmem with h1 | h1
        · exact Or.inl h1
        · exact Or.inr (List.mem_cons_of_mem _ h1)
      · intro q hq
        rcases List.mem_cons.mp hq with h1 | h1
        · rw [h1]; exact le_trans (le_of_not_lt h) hacc
        · exact hall q h1

/-- Python max with a key on a non-empty list: the result is a member
and its key dominates all members. -/
theorem pyMaxBy_spec (f : Pair → ℚ) {xs : List Pair} (h : xs ≠ []) :
    ∃ m, pyMaxBy f xs = some m ∧ m ∈ xs ∧ ∀ q ∈ xs, f q ≤ f m := by
  cases xs with
  | nil => exact absurd rfl h
  | cons x l =>
    obtain ⟨hmem, hacc, hall⟩ := pyFold_spec f l x
    refine ⟨_, rfl, ?_, ?_⟩
    · rcases hmem with h1 | h1
      · rw [h1]; exact List.mem_cons_self x l
      · exact List.mem_cons_of_mem _ h1
    · intro q hq
      rcases List.mem_cons.mp hq with h1 | h1
      · rw [h1]; exact hacc
      · exact hall q h1

/-- Membership is preserved by the stable insertion step. -/
theorem mem_insertByLe (f : Pair → ℚ) (x a : Pair) (l : List Pair) :
    a ∈ insertByLe f x l ↔ a = x ∨ a ∈ l := by
  induction l with
  | nil => simp [insertByLe]
  | cons y ys ih =>
    by_cases h : f x ≤ f y
    · simp [insertByLe, h]
    · simp only [insertByLe, if_neg h, List.mem_cons, ih]
      tauto

/-- Membership is preserved by the stable sort. -/
theorem mem_sortByKey (f : Pair → ℚ) (xs : List Pair) (a : Pair) :
    a ∈ sortByKey f xs ↔ a ∈ xs := by
  induction xs with
  | nil => simp [sortByKey]
  | cons y ys ih =>
    simp only [sortByKey, List.foldr_cons] at *
    rw [mem_insertByLe, ih, List.mem_cons]

/-- The stable sort of a non-empty list is non-empty. -/
theorem sortByKey_ne_nil (f : Pair → ℚ) {xs : List Pair} (h : xs ≠ []) :
    sortByKey f xs ≠ [] := by
  cases xs with
  | nil => exact absurd rfl h
  | cons y ys =>
    intro hcontra
    have : y ∈ sortByKey f (y :: ys) := (mem_sortByKey f _ y).mpr (List.mem_cons_self y ys)
    rw [hcontra] at this
    exact (List.not_mem_nil y) this

/-- Characterization of `get_best_token_pair` on a non-empty pair list:
when the time filter keeps something, the result is a maximum-liquidity
member of the filtered set; when the filter keeps nothing, the result is a
maximum-liquidity member of the whole list. -/
theorem get_best_token_pair_spec (pairs : List Pair) (tt : ℚ) (hne : pairs ≠ []) :
    ∃ m, get_best_token_pair pairs tt = some m ∧
      ((pairs.filter (validAt tt) ≠ [] ∧ m ∈ pairs.filter (validAt tt) ∧
          ∀ q ∈ pairs.filter (validAt tt), liqOf q ≤ liqOf m) ∨
       (pairs.filter (validAt tt) = [] ∧ m ∈ pairs ∧
          ∀ q ∈ pairs, liqOf q ≤ liqOf m)) := by
  by_cases hv : pairs.filter (validAt tt) = []
  · obtain ⟨m, hm, hmem, hall⟩ := pyMaxBy_spec liqOf (sortByKey_ne_nil createdOf hne)
    refine ⟨m, ?_, Or.inr ⟨hv, (mem_sortByKey createdOf pairs m).mp hmem, ?_⟩⟩
    · unfold get_best_token_pair
      rw [if_neg hne]
      simp only [if_pos hv]
      exact hm
    · intro q hq
      exact hall q ((mem_sortByKey createdOf pairs q).mpr hq)
  · obtain ⟨m, hm, hmem, hall⟩ := pyMaxBy_spec liqOf hv
    refine ⟨m, ?_, Or.inl ⟨hv, hmem, hall⟩⟩
    unfold get_best_token_pair
    rw [if_neg hne]
    simp only [if_neg hv]
    exact hm

/-- Invariant of the closest-scan fold once the accumulator holds a
candidate: the final candidate is the accumulator or a list element, it
reports its own delta, never exceeds the accumulator delta, and no list
element has a smaller delta. -/
theorem scanFold_some (ts : α → ℚ) (target : ℚ) (l : List α) :
    ∀ b db, db = absQ (ts b / 1000 - target) →
      ∃ c d,
        l.foldl
          (fun acc c =>
            let d := absQ (ts c / 1000 - target)
            match acc with
            | none => some (c, d)
            | some (b, db) => if d < db then some (c, d) else some (b, db))
          (some (b, db)) = some (c, d) ∧
        (c = b ∨ c ∈ l) ∧ d = absQ (ts c / 1000 - target) ∧ d ≤ db ∧
        ∀ x ∈ l, d ≤ absQ (ts x / 1000 - target) := by
  induction l with
  | nil =>
    intro b db hdb
    exact ⟨b, db, rfl, Or.inl rfl, hdb, le_refl db, by simp⟩
  | cons a l ih =>
    intro b db hdb
    simp only [List.foldl_cons]
    by_cases h : absQ (ts a / 1000 - target) < db
    · rw [if_pos h]
      obtain ⟨c, d, heq, hmem, hd, hle, hall⟩ := ih a (absQ (ts a / 1000 - target)) rfl
      refine ⟨c, d, heq, ?_, hd, le_of_lt (lt_of_le_of_lt hle h), ?_⟩
      · rcases hmem with h1 | h1
        · exact Or.inr (by simp [h1])
        · exact Or.inr (List.mem_cons_of_mem _ h1)
      · intro x hx
        rcases List.mem_cons.mp hx with h1 | h1
        · rw [h1]; exact hle
        · exact hall x h1
    · rw [if_neg h]
      obtain ⟨c, d, heq, hmem, hd, hle, hall⟩ := ih b db hdb
      refine ⟨c, d, heq, ?_, hd, hle, ?_⟩
      · rcases hmem with h1 | h1
        · exact Or.inl h1
        · exact Or.inr (List.mem_cons_of_mem _ h1)
      · intro x hx
        rcases List.mem_cons.mp hx with h1 | h1
        · rw [h1]; exact le_trans hle (le_of_not_lt h)
        · exact hall x h1

/-- A successful closest-scan returns a list member together with the
delta of that member, and that delta is minimal over the list. -/
theorem scanClosest_eq_some (ts : α → ℚ) (target : ℚ) {l : List α} {c : α} {d : ℚ}
    (h : scanClosest ts target l = some (c, d)) :
    c ∈ l ∧ d = absQ (ts c / 1000 - target) ∧
      ∀ y ∈ l, d ≤ absQ (ts y / 1000 - target) := by
  cases l with
  | nil => exact absurd h (by simp [scanClosest])
  | cons x l =>
    obtain ⟨c', d', heq, hmem, hd, hle, hall⟩ :=
      scanFold_some ts target l x (absQ (ts x / 1000 - target)) rfl
    have hpre : scanClosest ts target (x :: l) = some (c', d') := by
      unfold scanClosest
      simp only [List.foldl_cons]
      exact heq
    have hcd : (c, d) = (c', d') := Option.some.inj (h.symm.trans hpre)
    injection hcd with hc hdq
    subst hc
    subst hdq
    refine ⟨?_, hd, ?_⟩
    · rcases hmem with h1 | h1
      · rw [h1]; exact List.mem_cons_self x l
      · exact List.mem_cons_of_mem _ h1
    · intro y hy
      rcases List.mem_cons.mp hy with h1 | h1
      · rw [h1]; exact hle
      · exact hall y h1

/-- The closest scan over a non-empty list always yields a candidate. -/
theorem scanClosest_cons (ts : α → ℚ) (target : ℚ) (x : α) (l : List α) :
    ∃ c d, scanClosest ts target (x :: l) = some (c, d) := by
  obtain ⟨c, d, heq, _, _, _, _⟩ :=
    scanFold_some ts target l x (absQ (ts x / 1000 - target)) rfl
  refine ⟨c, d, ?_⟩
  unfold scanClosest
  simp only [List.foldl_cons]
  exact heq

/-- The CoinMarketCap leg issues only CoinMarketCap requests. -/
theorem cmcStep_trace (env : Env) :
    (cmcStep env).2 = [] ∨ (cmcStep env).2 = [NetCall.cmcSearch] ∨
      (cmcStep env).2 = [NetCall.cmcSearch, NetCall.cmcHistorical] := by
  obtain ⟨n, hk, cs, ch, ca, hi⟩ := env
  cases hk with
  | false => simp [cmcStep]
  | true =>
    cases cs with
    | none => simp [cmcStep]
    | some tok =>
      obtain ⟨oid⟩ := tok
      cases oid with
      | none => simp [cmcStep]
      | some i =>
        by_cases h : i = 0
        · simp [cmcStep, h]
        · simp [cmcStep, h]

/-- No DEXScreener request appears in the trace of the CoinMarketCap
leg. -/
theorem cmcStep_count_dex (env : Env) :
    (cmcStep env).2.count NetCall.dexCandles = 0 ∧
      (cmcStep env).2.count NetCall.dexHistory = 0 := by
  rcases cmcStep_trace env with h | h | h <;> rw [h] <;> constructor <;> decide

/-- A successful candle branch comes from a delivered candle list: the
chosen candle is a member, within 43200 seconds of the target, with
minimal delta; the dictionary copies the candle `close` into both price
fields, takes the current liquidity and volume of the pair, and the
second-resolution timestamp of the candle. -/
theorem candleResult_eq_some (env : Env) (pair : Pair) (t : ℚ) (pp : PricePoint)
    (h : candleResult env pair t = some pp) :
    ∃ l c, env.candles = some l ∧ c ∈ l ∧
      absQ (c.timestamp / 1000 - t) ≤ 43200 ∧
      (∀ y ∈ l, absQ (c.timestamp / 1000 - t) ≤ absQ (y.timestamp / 1000 - t)) ∧
      pp = { price_usd := c.close, price_native := c.close,
             liquidity_usd := pair.liquidity_usd, volume_24h := pair.volume_h24,
             market_cap := none, timestamp := c.timestamp / 1000,
             data_source := "dexscreener_candles" } := by
  cases hc : env.candles with
  | none =>
    simp only [candleResult, hc, Option.none_bind] at h
    exact Option.noConfusion h
  | some l =>
    simp only [candleResult, hc, Option.some_bind] at h
    cases hscan : scanClosest Candle.timestamp t l with
    | none =>
      rw [hscan] at h
      simp only [Option.none_bind] at h
      exact Option.noConfusion h
    | some cd =>
      obtain ⟨c, d⟩ := cd
      rw [hscan] at h
      simp only [Option.some_bind] at h
      obtain ⟨hmem, hd, hall⟩ := scanClosest_eq_some Candle.timestamp t hscan
      by_cases hb : d ≤ 43200
      · rw [if_pos hb] at h
        refine ⟨l, c, rfl, hmem, hd ▸ hb, ?_, (Option.some.inj h).symm⟩
        intro y hy
        exact hd ▸ hall y hy
      · rw [if_neg hb] at h
        exact absurd h (by simp)

/-- When every delivered candle is more than 43200 seconds from the
target, the candle branch yields nothing. -/
theorem candleResult_none_of_far (env : Env) (pair : Pair) (t : ℚ)
    (h : ∀ l, env.candles = some l →
      ∀ c ∈ l, ¬ absQ (c.timestamp / 1000 - t) ≤ 43200) :
    candleResult env pair t = none := by
  cases hc : env.candles with
  | none => simp only [candleResult, hc, Option.none_bind]
  | some l =>
    simp only [candleResult, hc, Option.some_bind]
    cases hscan : scanClosest Candle.timestamp t l with
    | none => simp only [Option.none_bind]
    | some cd =>
      obtain ⟨c, d⟩ := cd
      simp only [Option.some_bind]
      obtain ⟨hmem, hd, _⟩ := scanClosest_eq_some Candle.timestamp t hscan
      rw [if_neg (hd ▸ h l hc c hmem)]

/-- A successful history branch comes from a delivered history list: the
chosen point is a member, within 43200 seconds of the target, with
minimal delta; the dictionary copies the own fields of the point and its
second-resolution timestamp. -/
theorem historyResult_eq_some (env : Env) (pair : Pair) (t : ℚ) (pp : PricePoint)
    (h : historyResult env pair t = some pp) :
    ∃ l c, env.history = some l ∧ c ∈ l ∧
      absQ (c.timestamp / 1000 - t) ≤ 43200 ∧
      (∀ y ∈ l, absQ (c.timestamp / 1000 - t) ≤ absQ (y.timestamp / 1000 - t)) ∧
      pp = { price_usd := c.priceUsd, price_native := c.priceNative,
             liquidity_usd := c.liquidityUsd, volume_24h := c.volumeUsd,
             market_cap := none, timestamp := c.timestamp / 1000,
             data_source := "dexscreener_historical" } := by
  cases hc : env.history with
  | none =>
    simp only [historyResult, hc, Option.none_bind] at h
    exact Option.noConfusion h
  | some l =>
    simp only [historyResult, hc, Option.some_bind] at h
    cases hscan : scanClosest HistPoint.timestamp t l with
    | none =>
      rw [hscan] at h
      simp only [Option.none_bind] at h
      exact Option.noConfusion h
    | some cd =>
      obtain ⟨c, d⟩ := cd
      rw [hscan] at h
      simp only [Option.some_bind] at h
      obtain ⟨hmem, hd, hall⟩ := scanClosest_eq_some HistPoint.timestamp t hscan
      by_cases hb : d ≤ 43200
      · rw [if_pos hb] at h
        refine ⟨l, c, rfl, hmem, hd ▸ hb, ?_, (Option.some.inj h).symm⟩
        intro y hy
        exact hd ▸ hall y hy
      · rw [if_neg hb] at h
        exact absurd h (by simp)

/-- When every delivered history point is more than 43200 seconds from
the target, the history branch yields nothing. -/
theorem historyResult_none_of_far (env : Env) (pair : Pair) (t : ℚ)
    (h : ∀ l, env.history = some l →
      ∀ c ∈ l, ¬ absQ (c.timestamp / 1000 - t) ≤ 43200) :
    historyResult env pair t = none := by
  cases hc : env.history with
  | none => simp only [historyResult, hc, Option.none_bind]
  | some l =>
    simp only [historyResult, hc, Option.some_bind]
    cases hscan : scanClosest HistPoint.timestamp t l with
    | none => simp only [Option.none_bind]
    | some cd =>
      obtain ⟨c, d⟩ := cd
      simp only [Option.some_bind]
      obtain ⟨hmem, hd, _⟩ := scanClosest_eq_some HistPoint.timestamp t hscan
      rw [if_neg (hd ▸ h l hc c hmem)]

/-- Future target: early return, no requests. -/
theorem gpat_future (env : Env) (pair : Pair) (t : ℚ) (h : t > env.now) :
    get_price_at_time env pair t = (futurePoint t, []) := by
  unfold get_price_at_time
  rw [if_pos h]

/-- CoinMarketCap success short-circuits the rest of the cascade. -/
theorem gpat_cmc_some (env : Env) (pair : Pair) (t : ℚ) (q : CmcQuote)
    (hnow : ¬ t > env.now) (h : (cmcStep env).1 = some q) :
    get_price_at_time env pair t = (cmcPoint q t, (cmcStep env).2) := by
  unfold get_price_at_time
  rw [if_neg hnow, h]

/-- CoinMarketCap failure with a candle hit: the candle point is
returned after the CMC requests plus one candle request. -/
theorem gpat_candle (env : Env) (pair : Pair) (t : ℚ) (pp : PricePoint)
    (hnow : ¬ t > env.now) (h1 : (cmcStep env).1 = none)
    (htr : (strTruthy pair.pairAddress && strTruthy pair.chainId) = true)
    (hc : candleResult env pair t = some pp) :
    get_price_at_time env pair t = (pp, (cmcStep env).2 ++ [NetCall.dexCandles]) := by
  unfold get_price_at_time
  rw [if_neg hnow, h1, htr, hc]
  rfl

/-- CoinMarketCap and candle failure with a history hit: the history
point is returned after the CMC, candle and history requests. -/
theorem gpat_history (env : Env) (pair : Pair) (t : ℚ) (pp : PricePoint)
    (hnow : ¬ t > env.now) (h1 : (cmcStep env).1 = none)
    (htr : (strTruthy pair.pairAddress && strTruthy pair.chainId) = true)
    (hc : candleResult env pair t = none)
    (hh : historyResult env pair t = some pp) :
    get_price_at_time env pair t =
      (pp, (cmcStep env).2 ++ [NetCall.dexCandles, NetCall.dexHistory]) := by
  unfold get_price_at_time
  rw [if_neg hnow, h1, htr, hc, hh]
  rfl

/-- Everything historical failed: the current-price fallback is returned
after the CMC, candle and history requests. -/
theorem gpat_current (env : Env) (pair : Pair) (t : ℚ)
    (hnow : ¬ t > env.now) (h1 : (cmcStep env).1 = none)
    (htr : (strTruthy pair.pairAddress && strTruthy pair.chainId) = true)
    (hc : candleResult env pair t = none)
    (hh : historyResult env pair t = none) :
    get_price_at_time env pair t =
      (currentPoint pair t,
        (cmcStep env).2 ++ [NetCall.dexCandles, NetCall.dexHistory]) := by
  unfold get_price_at_time
  rw [if_neg hnow, h1, htr, hc, hh]
  rfl

/-- Missing pair address or chain id: straight to the current-price
fallback after the CMC leg, no DEXScreener request. -/
theorem gpat_no_pair_fields (env : Env) (pair : Pair) (t : ℚ)
    (hnow : ¬ t > env.now) (h1 : (cmcStep env).1 = none)
    (htr : (strTruthy pair.pairAddress && strTruthy pair.chainId) = false) :
    get_price_at_time env pair t = (currentPoint pair t, (cmcStep env).2) := by
  unfold get_price_at_time
  rw [if_neg hnow, h1, htr]
  rfl

/-- C1: the specification says the resolver consults the price cache
before querying providers and writes the produced point into the cache
before returning.  The body of `get_price_at_time`
(analyze_price.py:253-371) contains no reference to `self.price_cache`,
`store_price_data` or `get_cached_price_data`, so the state-threaded
embedding returns the cache unchanged and never reads it; at a concrete
input whose resolution succeeds, the first call leaves the cache empty and
a second call with the identical key re-issues the same non-empty network
trace instead of a cache hit.  This refutes the claimed cache-hit
behaviour: the cache machinery exists in the class but is never invoked. -/
theorem c1_resolver_never_touches_cache :
    (∀ (cache : PriceCache) (env : Env) (pair : Pair) (t : ℚ),
      (get_price_at_time_with_cache cache env pair t).2 = cache ∧
      (get_price_at_time_with_cache cache env pair t).1 =
        get_price_at_time env pair t) ∧
    (get_price_at_time_with_cache [] envC1 pairK 50).2 = [] ∧
    (get_price_at_time_with_cache
        (get_price_at_time_with_cache [] envC1 pairK 50).2 envC1 pairK 50).1.2 =
      [NetCall.cmcSearch, NetCall.cmcHistorical] ∧
    get_cached_price_data
        (get_price_at_time_with_cache [] envC1 pairK 50).2
        "TOK" "0xabc123" "first_mention" = none := by
  refine ⟨fun cache env pair t => ⟨rfl, rfl⟩, rfl, ?_, rfl⟩
  norm_num [get_price_at_time_with_cache, get_price_at_time, cmcStep, envC1, pairK]

/-- C3 counterexample: the analyzer keeps one shared
`last_request_time`, so a request on behalf of one provider lengthens the
wait of the next request even when that next request is for a different
provider that was never queried: from a state last updated at time 0, a
"dexscreener" request at time 100.5 would wait 0, but after a
"coinmarketcap" request at time 100 the same "dexscreener" request waits
0.5 s. -/
theorem c3_counterexample :
    (rate_limitCall "dexscreener" { last_request_time := 0 } (201 / 2)).1 = 0 ∧
    (rate_limitCall "dexscreener"
        ((rate_limitCall "coinmarketcap" { last_request_time := 0 } 100).2)
        (201 / 2)).1 = 1 / 2 := by
  constructor
  · norm_num [rate_limitCall, rate_limit, min_request_interval]
  · norm_num [rate_limitCall, rate_limit, min_request_interval]

/-- C3 amended: `rate_limit` enforces the minimum interval against a
single analyzer-wide timestamp: the provider name plays no role in the
wait, a caller arriving at least `min_request_interval` after the shared
timestamp waits 0, a caller arriving earlier waits exactly up to
`last_request_time + min_request_interval`, and the shared timestamp is
set to the moment the turn is granted. -/
theorem c3_shared_interval (p q : String) (st : LimiterState) (now : ℚ) :
    rate_limitCall p st now = rate_limitCall q st now ∧
    (st.last_request_time + min_request_interval ≤ now →
      (rate_limitCall p st now).1 = 0) ∧
    (now < st.last_request_time + min_request_interval →
      now + (rate_limitCall p st now).1 =
        st.last_request_time + min_request_interval) ∧
    (rate_limitCall p st now).2.last_request_time =
      now + (rate_limitCall p st now).1 := by
  refine ⟨rfl, ?_, ?_, rfl⟩
  · intro hle
    simp only [rate_limitCall, rate_limit]
    rw [if_neg (show ¬ now - st.last_request_time < min_request_interval by
      linarith)]
  · intro hlt
    simp only [rate_limitCall, rate_limit]
    rw [if_pos (show now - st.last_request_time < min_request_interval by
      linarith)]
    ring

/-- C3 witness: from the freshly initialised state, a caller arriving at
time 0.5 waits exactly 0.5 s. -/
theorem c3_shared_interval_witness :
    (rate_limitCall "coinmarketcap" { last_request_time := 0 } (1 / 2)).1 =
      1 / 2 := by
  have h :=
    (c3_shared_interval "coinmarketcap" "dexscreener"
        { last_request_time := 0 } (1 / 2)).2.2.1
      (by norm_num [min_request_interval])
  norm_num [min_request_interval] at h
  linarith

/-- C4 counterexample: with a base price of $1 and a later price equal to
0 from a non-future source, the claim demands the value
(0 - 1) / 1 * 100 = -100, but the guard `post > 0` in the code makes
the change unavailable (`None`). -/
theorem c4_counterexample :
    price_change cpBase cpZero = none ∧
    cpBase.price_usd = some 1 ∧
    cpZero.price_usd = some 0 ∧
    cpZero.data_source ≠ "future_date" := by
  refine ⟨?_, by simp [cpBase], by simp [cpZero], by simp [cpZero]⟩
  norm_num [price_change, cpBase, cpZero, effPrice]

/-- C4 amended: after `float(... or 0)` coercion, the change is
unavailable exactly when the effective base price is not positive, the
effective later price is not positive, or the later source is
`future_date`; in every remaining case it is exactly
(later - base) / base * 100.  A null price on either side collapses to an
effective 0 and is therefore unavailable. -/
theorem c4_change_characterization (b l : PricePoint) :
    (price_change b l = none ↔
      effPrice b.price_usd ≤ 0 ∨ effPrice l.price_usd ≤ 0 ∨
        l.data_source = "future_date") ∧
    (0 < effPrice b.price_usd → 0 < effPrice l.price_usd →
      l.data_source ≠ "future_date" →
      price_change b l =
        some ((effPrice l.price_usd - effPrice b.price_usd) /
          effPrice b.price_usd * 100)) ∧
    (b.price_usd = none → price_change b l = none) ∧
    (l.price_usd = none → price_change b l = none) := by
  by_cases h : 0 < effPrice b.price_usd ∧ 0 < effPrice l.price_usd ∧
      l.data_source ≠ "future_date"
  · have hpc : price_change b l =
        some ((effPrice l.price_usd - effPrice b.price_usd) /
          effPrice b.price_usd * 100) := by
      simp only [price_change, if_pos h]
    refine ⟨?_, fun _ _ _ => hpc, ?_, ?_⟩
    · rw [hpc]
      constructor
      · intro hc
        exact Option.noConfusion hc
      · rintro (hq | hq | hq)
        · exact absurd hq (not_le.mpr h.1)
        · exact absurd hq (not_le.mpr h.2.1)
        · exact absurd hq h.2.2
    · intro hb
      exfalso
      have hz : effPrice b.price_usd = 0 := by simp [effPrice, hb]
      rw [hz] at h
      exact lt_irrefl 0 h.1
    · intro hl
      exfalso
      have hz : effPrice l.price_usd = 0 := by simp [effPrice, hl]
      rw [hz] at h
      exact lt_irrefl 0 h.2.1
  · have hpc : price_change b l = none := by
      simp only [price_change, if_neg h]
    push_neg at h
    refine ⟨?_, ?_, fun _ => hpc, fun _ => hpc⟩
    · rw [hpc]
      constructor
      · intro _
        by_cases h1 : 0 < effPrice b.price_usd
        · by_cases h2 : 0 < effPrice l.price_usd
          · exact Or.inr (Or.inr (h h1 h2))
          · exact Or.inr (Or.inl (not_lt.mp h2))
        · exact Or.inl (not_lt.mp h1)
      · intro _
        rfl
    · intro h1 h2 h3
      exact absurd (h h1 h2) h3

/-- C4 witness: base $1 to later $1.50 is exactly +50%. -/
theorem c4_change_characterization_witness :
    price_change cpBase cpLater = some 50 := by
  have h := (c4_change_characterization cpBase cpLater).2.1
    (by norm_num [effPrice, cpBase])
    (by norm_num [effPrice, cpLater])
    (by simp [cpLater])
  rw [h]
  norm_num [effPrice, cpBase, cpLater]

/-- C5: for a target time strictly after "now", `get_price_at_time`
returns a point whose source is `future_date` with every numeric field
null, issues no network request, and leaves the cache untouched. -/
theorem c5_future_returns_null_point (cache : PriceCache) (env : Env)
    (pair : Pair) (t : ℚ) (h : t > env.now) :
    get_price_at_time_with_cache cache env pair t =
      (({ price_usd := none, price_native := none, liquidity_usd := none,
          volume_24h := none, market_cap := none, timestamp := t,
          data_source := "future_date" }, []), cache) := by
  unfold get_price_at_time_with_cache
  rw [gpat_future env pair t h]
  rfl

/-- C5 witness: at target time 2000 against clock 1000, the future point
comes back with no requests and an unchanged cache. -/
theorem c5_future_returns_null_point_witness :
    get_price_at_time_with_cache [] envAllFail pairK 2000 =
      (({ price_usd := none, price_native := none, liquidity_usd := none,
          volume_24h := none, market_cap := none, timestamp := 2000,
          data_source := "future_date" }, []), []) :=
  c5_future_returns_null_point [] envAllFail pairK 2000
    (by norm_num [envAllFail])

/-- C2 counterexample: with reference time 0 and two pairs both created
after the one-hour tolerance (so no pair qualifies), the code selects the
pair with the higher liquidity, created at 10800 s, not the globally
oldest pair, created at 7200 s. -/
theorem c2_counterexample :
    get_best_token_pair [cexOld, cexNew] 0 = some cexNew ∧
    createdOf cexOld < createdOf cexNew ∧
    validAt 0 cexOld = false ∧
    validAt 0 cexNew = false := by
  refine ⟨?_, by norm_num [createdOf, cexOld, cexNew], ?_, ?_⟩
  · norm_num [get_best_token_pair, validAt, cexOld, cexNew, sortByKey,
      insertByLe, createdOf, pyMaxBy, liqOf]
    simp +decide
  · norm_num [validAt, cexOld]
  · norm_num [validAt, cexNew]

/-- C2 amended: on a non-empty pair list, the selection keeps exactly the
pairs carrying a creation time at or before reference + 1 h and returns a
maximum-liquidity member of that set; when no pair qualifies, the
fallback set is all pairs sorted by ascending creation time, so the
result is a maximum-liquidity member of the whole list (ties going to the
earliest-created), not the globally oldest pair. -/
theorem c2_pair_selection (pairs : List Pair) (tt : ℚ) (hne : pairs ≠ []) :
    ∃ m, get_best_token_pair pairs tt = some m ∧
      ((pairs.filter (validAt tt) ≠ [] ∧ m ∈ pairs.filter (validAt tt) ∧
          ∀ q ∈ pairs.filter (validAt tt), liqOf q ≤ liqOf m) ∨
       (pairs.filter (validAt tt) = [] ∧ m ∈ pairs ∧
          ∀ q ∈ pairs, liqOf q ≤ liqOf m)) :=
  get_best_token_pair_spec pairs tt hne

/-- C2 witness: the example given by the specification.  Pairs created
at T-2h
($500), T-30m ($10000) and T+2h ($1000000) with reference time
T = 1000000 s: the T+2h pair is filtered out and the T-30m pair wins on
liquidity. -/
theorem c2_pair_selection_witness :
    get_best_token_pair exPairs 1000000 = some exP2 ∧
    exPairs.filter (validAt 1000000) = [exP1, exP2] ∧
    (∃ m, get_best_token_pair exPairs 1000000 = some m ∧
      ((exPairs.filter (validAt 1000000) ≠ [] ∧
          m ∈ exPairs.filter (validAt 1000000) ∧
          ∀ q ∈ exPairs.filter (validAt 1000000), liqOf q ≤ liqOf m) ∨
       (exPairs.filter (validAt 1000000) = [] ∧ m ∈ exPairs ∧
          ∀ q ∈ exPairs, liqOf q ≤ liqOf m))) := by
  refine ⟨?_, ?_, c2_pair_selection exPairs 1000000 (by simp [exPairs])⟩
  · norm_num [get_best_token_pair, validAt, exPairs, exP1, exP2, exP3,
      pyMaxBy, liqOf]
    simp +decide
  · norm_num [exPairs, List.filter, validAt, exP1, exP2, exP3]

/-- C10: a pair with no `pairCreatedAt` key never passes the time filter,
whatever the reference time; in the fallback it sorts as creation time 0,
a missing or null liquidity compares as 0, and when no pair qualifies the
selected pair is a maximum-liquidity member of the whole list. -/
theorem c10_missing_key_semantics (pairs : List Pair) (tt : ℚ) :
    (∀ p, p.pairCreatedAt = none → p ∉ pairs.filter (validAt tt)) ∧
    (∀ p, p.pairCreatedAt = none → createdOf p = 0) ∧
    (∀ p, p.liquidity_usd = none → liqOf p = 0) ∧
    (pairs ≠ [] → pairs.filter (validAt tt) = [] →
      ∃ m, get_best_token_pair pairs tt = some m ∧ m ∈ pairs ∧
        ∀ q ∈ pairs, liqOf q ≤ liqOf m) := by
  refine ⟨?_, ?_, ?_, ?_⟩
  · intro p hp hmem
    have hval := (List.mem_filter.mp hmem).2
    simp [validAt, hp] at hval
  · intro p hp
    simp [createdOf, hp]
  · intro p hp
    simp [liqOf, hp]
  · intro hne hempty
    obtain ⟨m, hm, hcase⟩ := get_best_token_pair_spec pairs tt hne
    rcases hcase with ⟨hne2, _, _⟩ | ⟨_, hmem, hall⟩
    · exact absurd hempty hne2
    · exact ⟨m, hm, hmem, hall⟩

/-- C10 witness: with reference time 0, the keyless pair is not in the
filtered set even though the other pair was created far later; no pair
qualifies and the higher-liquidity pair is selected; the default
accessors give 0 for a missing creation time and a missing liquidity. -/
theorem c10_missing_key_semantics_witness :
    pNoCreated ∉ [pNoCreated, pLate].filter (validAt 0) ∧
    createdOf pNoCreated = 0 ∧
    liqOf { pNoCreated with liquidity_usd := none } = 0 ∧
    get_best_token_pair [pNoCreated, pLate] 0 = some pLate ∧
    (∃ m, get_best_token_pair [pNoCreated, pLate] 0 = some m ∧
      m ∈ [pNoCreated, pLate] ∧
      ∀ q ∈ [pNoCreated, pLate], liqOf q ≤ liqOf m) := by
  refine ⟨(c10_missing_key_semantics [pNoCreated, pLate] 0).1 pNoCreated rfl,
    (c10_missing_key_semantics [pNoCreated, pLate] 0).2.1 pNoCreated rfl,
    (c10_missing_key_semantics [pNoCreated, pLate] 0).2.2.1 _ rfl,
    ?_,
    (c10_missing_key_semantics [pNoCreated, pLate] 0).2.2.2 (by simp) ?_⟩
  · norm_num [get_best_token_pair, validAt, pNoCreated, pLate, sortByKey,
      insertByLe, createdOf, pyMaxBy, liqOf]
    simp +decide
  · norm_num [List.filter, validAt, pNoCreated, pLate]

/-- C6: within one resolution (pair context carrying truthy address and
chain), a CoinMarketCap success means no DEXScreener request is issued;
a CoinMarketCap miss triggers exactly one candle request; the history
request happens only after both a CoinMarketCap miss and a candle miss;
and a current-price fallback result certifies that every historical step
failed and each DEXScreener endpoint was hit exactly once before it. -/
theorem c6_cascade_order (env : Env) (pair : Pair) (t : ℚ)
    (hnow : ¬ t > env.now)
    (haddr : strTruthy pair.pairAddress = true)
    (hchain : strTruthy pair.chainId = true) :
    (∀ q, (cmcStep env).1 = some q →
      NetCall.dexCandles ∉ (get_price_at_time env pair t).2 ∧
      NetCall.dexHistory ∉ (get_price_at_time env pair t).2) ∧
    ((cmcStep env).1 = none →
      (get_price_at_time env pair t).2.count NetCall.dexCandles = 1 ∧
      (get_price_at_time env pair t).2.count NetCall.dexHistory ≤ 1) ∧
    (NetCall.dexHistory ∈ (get_price_at_time env pair t).2 →
      (cmcStep env).1 = none ∧ candleResult env pair t = none) ∧
    ((get_price_at_time env pair t).1.data_source = "dexscreener_current" →
      (cmcStep env).1 = none ∧ candleResult env pair t = none ∧
      historyResult env pair t = none ∧
      (get_price_at_time env pair t).2.count NetCall.dexCandles = 1 ∧
      (get_price_at_time env pair t).2.count NetCall.dexHistory = 1) := by
  have htr : (strTruthy pair.pairAddress && strTruthy pair.chainId) = true := by
    simp [haddr, hchain]
  have hdexc := (cmcStep_count_dex env).1
  have hdexh := (cmcStep_count_dex env).2
  rcases hq : (cmcStep env).1 with _ | q
  · rcases hcand : candleResult env pair t with _ | pp
    · rcases hhist : historyResult env pair t with _ | pp
      · rw [gpat_current env pair t hnow hq htr hcand hhist]
        dsimp only
        refine ⟨?_, ?_, ?_, ?_⟩
        · intro q' hq'
          exact Option.noConfusion hq'
        · intro _
          constructor
          · rw [List.count_append, hdexc]
            decide
          · rw [List.count_append, hdexh]
            decide
        · intro _
          exact ⟨rfl, rfl⟩
        · intro _
          refine ⟨rfl, rfl, rfl, ?_, ?_⟩
          · rw [List.count_append, hdexc]
            decide
          · rw [List.count_append, hdexh]
            decide
      · rw [gpat_history env pair t pp hnow hq htr hcand hhist]
        dsimp only
        refine ⟨?_, ?_, ?_, ?_⟩
        · intro q' hq'
          exact Option.noConfusion hq'
        · intro _
          constructor
          · rw [List.count_append, hdexc]
            decide
          · rw [List.count_append, hdexh]
            decide
        · intro _
          exact ⟨rfl, rfl⟩
        · intro hsrc
          exfalso
          obtain ⟨l, c, _, _, _, _, hpp⟩ :=
            historyResult_eq_some env pair t pp hhist
          rw [hpp] at hsrc
          exact absurd
            (show "dexscreener_historical" = "dexscreener_current" from hsrc)
            (by decide)
    · rw [gpat_candle env pair t pp hnow hq htr hcand]
      dsimp only
      refine ⟨?_, ?_, ?_, ?_⟩
      · intro q' hq'
        exact Option.noConfusion hq'
      · intro _
        constructor
        · rw [List.count_append, hdexc]
          decide
        · rw [List.count_append, hdexh]
          decide
      · intro hmem
        exfalso
        rcases List.mem_append.mp hmem with h1 | h1
        · exact (List.count_eq_zero.mp hdexh) h1
        · rw [List.mem_singleton] at h1
          exact absurd h1 (by decide)
      · intro hsrc
        exfalso
        obtain ⟨l, c, _, _, _, _, hpp⟩ :=
          candleResult_eq_some env pair t pp hcand
        rw [hpp] at hsrc
        exact absurd
          (show "dexscreener_candles" = "dexscreener_current" from hsrc)
          (by decide)
  · rw [gpat_cmc_some env pair t q hnow hq]
    dsimp only
    refine ⟨?_, ?_, ?_, ?_⟩
    · intro q' _
      exact ⟨List.count_eq_zero.mp hdexc, List.count_eq_zero.mp hdexh⟩
    · intro h0
      exact Option.noConfusion h0
    · intro hmem
      exact absurd hmem (List.count_eq_zero.mp hdexh)
    · intro hsrc
      exact absurd (show "coinmarketcap" = "dexscreener_current" from hsrc)
        (by decide)

/-- C6 witness: with every provider failing and a well-formed pair
context, the result is the current-price fallback and each DEXScreener
endpoint was requested exactly once. -/
theorem c6_cascade_order_witness :
    (cmcStep envAllFail).1 = none ∧
    (get_price_at_time envAllFail pairK 500).1.data_source =
      "dexscreener_current" ∧
    (get_price_at_time envAllFail pairK 500).2.count NetCall.dexCandles = 1 ∧
    (get_price_at_time envAllFail pairK 500).2.count NetCall.dexHistory = 1 := by
  have hnow : ¬ (500 : ℚ) > envAllFail.now := by norm_num [envAllFail]
  have h := (c6_cascade_order envAllFail pairK 500 hnow (by decide)
    (by decide)).2.2.2
  have hg := gpat_current envAllFail pairK 500 hnow rfl (by decide) rfl rfl
  have hsrc : (get_price_at_time envAllFail pairK 500).1.data_source =
      "dexscreener_current" := by
    rw [hg]
    rfl
  obtain ⟨_, _, _, hc1, hc2⟩ := h hsrc
  exact ⟨rfl, hsrc, hc1, hc2⟩

/-- C7: each DEXScreener branch selects a delivered element whose
timestamp is nearest to the target and accepts it only within 43200 s;
if every element of a delivered series is out of bound the branch yields
nothing; a candle hit is what the resolver returns (history is not
reached); and when both branches miss, the resolver falls through to the
current-price point. -/
theorem c7_nearest_within_bound (env : Env) (pair : Pair) (t : ℚ) :
    (∀ pp, candleResult env pair t = some pp →
      ∃ l c, env.candles = some l ∧ c ∈ l ∧
        pp.price_usd = c.close ∧ pp.timestamp = c.timestamp / 1000 ∧
        absQ (c.timestamp / 1000 - t) ≤ 43200 ∧
        ∀ y ∈ l, absQ (c.timestamp / 1000 - t) ≤ absQ (y.timestamp / 1000 - t)) ∧
    (∀ pp, historyResult env pair t = some pp →
      ∃ l c, env.history = some l ∧ c ∈ l ∧
        pp.price_usd = c.priceUsd ∧ pp.timestamp = c.timestamp / 1000 ∧
        absQ (c.timestamp / 1000 - t) ≤ 43200 ∧
        ∀ y ∈ l, absQ (c.timestamp / 1000 - t) ≤ absQ (y.timestamp / 1000 - t)) ∧
    (∀ l, env.candles = some l →
      (∀ c ∈ l, ¬ absQ (c.timestamp / 1000 - t) ≤ 43200) →
      candleResult env pair t = none) ∧
    (∀ l, env.history = some l →
      (∀ c ∈ l, ¬ absQ (c.timestamp / 1000 - t) ≤ 43200) →
      historyResult env pair t = none) ∧
    (∀ pp, ¬ t > env.now → (cmcStep env).1 = none →
      (strTruthy pair.pairAddress && strTruthy pair.chainId) = true →
      candleResult env pair t = some pp →
      (get_price_at_time env pair t).1 = pp) ∧
    (¬ t > env.now → (cmcStep env).1 = none →
      (strTruthy pair.pairAddress && strTruthy pair.chainId) = true →
      candleResult env pair t = none → historyResult env pair t = none →
      (get_price_at_time env pair t).1.data_source = "dexscreener_current") := by
  refine ⟨?_, ?_, ?_, ?_, ?_, ?_⟩
  · intro pp h
    obtain ⟨l, c, hl, hm, hb, hmin, hpp⟩ := candleResult_eq_some env pair t pp h
    exact ⟨l, c, hl, hm, by rw [hpp], by rw [hpp], hb, hmin⟩
  · intro pp h
    obtain ⟨l, c, hl, hm, hb, hmin, hpp⟩ := historyResult_eq_some env pair t pp h
    exact ⟨l, c, hl, hm, by rw [hpp], by rw [hpp], hb, hmin⟩
  · intro l hl hfar
    refine candleResult_none_of_far env pair t ?_
    intro l' hl' c hc
    rw [hl] at hl'
    cases Option.some.inj hl'
    exact hfar c hc
  · intro l hl hfar
    refine historyResult_none_of_far env pair t ?_
    intro l' hl' c hc
    rw [hl] at hl'
    cases Option.some.inj hl'
    exact hfar c hc
  · intro pp hnow h1 htr hc
    rw [gpat_candle env pair t pp hnow h1 htr hc]
  · intro hnow h1 htr hc hh
    rw [gpat_current env pair t hnow h1 htr hc hh]
    rfl

/-- C7 witness: on candles at deltas 20 h, 11 h and 1 h from the target,
the 1 h candle (close 42) is selected; on candles at deltas 20 h and 15 h
only, no candle qualifies. -/
theorem c7_nearest_within_bound_witness :
    candleResult envC7 pairK 100000 = some ppC7 ∧
    candleResult envC7far pairK 100000 = none ∧
    (∃ l c, envC7.candles = some l ∧ c ∈ l ∧
      ppC7.price_usd = c.close ∧ ppC7.timestamp = c.timestamp / 1000 ∧
      absQ (c.timestamp / 1000 - 100000) ≤ 43200 ∧
      ∀ y ∈ l, absQ (c.timestamp / 1000 - 100000) ≤
        absQ (y.timestamp / 1000 - 100000)) := by
  have hc : candleResult envC7 pairK 100000 = some ppC7 := by
    norm_num [candleResult, envC7, pairK, ppC7, scanClosest, absQ,
      cand20h, cand11h, cand1h]
  have hfar : candleResult envC7far pairK 100000 = none := by
    norm_num [candleResult, envC7far, pairK, scanClosest, absQ,
      cand20h, cand15h]
  exact ⟨hc, hfar, (c7_nearest_within_bound envC7 pairK 100000).1 ppC7 hc⟩

/-- C8: the resolver is total over every environment: the produced point
always carries one of the five provenance tags, and when the clock is not
in the future and every historical path fails, the result is exactly
the current fields of the pair tagged `dexscreener_current` with the
target time as its timestamp. -/
theorem c8_total_resolution (env : Env) (pair : Pair) (t : ℚ) :
    ((get_price_at_time env pair t).1.data_source = "future_date" ∨
     (get_price_at_time env pair t).1.data_source = "coinmarketcap" ∨
     (get_price_at_time env pair t).1.data_source = "dexscreener_candles" ∨
     (get_price_at_time env pair t).1.data_source = "dexscreener_historical" ∨
     (get_price_at_time env pair t).1.data_source = "dexscreener_current") ∧
    (¬ t > env.now → (cmcStep env).1 = none →
      candleResult env pair t = none → historyResult env pair t = none →
      (get_price_at_time env pair t).1 =
        { price_usd := pair.priceUsd, price_native := pair.priceNative,
          liquidity_usd := pair.liquidity_usd, volume_24h := pair.volume_h24,
          market_cap := none, timestamp := t,
          data_source := "dexscreener_current" }) := by
  by_cases hfut : t > env.now
  · rw [gpat_future env pair t hfut]
    constructor
    · left
      rfl
    · intro hnow
      exact absurd hfut hnow
  · rcases hq : (cmcStep env).1 with _ | q
    · cases htr : (strTruthy pair.pairAddress && strTruthy pair.chainId) with
      | false =>
        rw [gpat_no_pair_fields env pair t hfut hq htr]
        constructor
        · right; right; right; right
          rfl
        · intro _ _ _ _
          rfl
      | true =>
        rcases hcand : candleResult env pair t with _ | pp
        · rcases hhist : historyResult env pair t with _ | pp
          · rw [gpat_current env pair t hfut hq htr hcand hhist]
            constructor
            · right; right; right; right
              rfl
            · intro _ _ _ _
              rfl
          · rw [gpat_history env pair t pp hfut hq htr hcand hhist]
            constructor
            · obtain ⟨l, c, _, _, _, _, hpp⟩ :=
                historyResult_eq_some env pair t pp hhist
              right; right; right; left
              rw [hpp]
            · intro _ _ _ hh
              exact Option.noConfusion hh
        · rw [gpat_candle env pair t pp hfut hq htr hcand]
          constructor
          · obtain ⟨l, c, _, _, _, _, hpp⟩ :=
              candleResult_eq_some env pair t pp hcand
            right; right; left
            rw [hpp]
          · intro _ _ hc _
            exact Option.noConfusion hc
    · rw [gpat_cmc_some env pair t q hfut hq]
      constructor
      · right; left
        rfl
      · intro _ h1 _ _
        exact Option.noConfusion h1

/-- C8 witness: with every provider failing, the concrete result is
made of the current price, native price, liquidity and volume of the
pair, with the target time and the `dexscreener_current` tag. -/
theorem c8_total_resolution_witness :
    (get_price_at_time envAllFail pairK 500).1 =
      { price_usd := some 2, price_native := some 3, liquidity_usd := some 7,
        volume_24h := some 9, market_cap := none, timestamp := 500,
        data_source := "dexscreener_current" } := by
  have h := (c8_total_resolution envAllFail pairK 500).2
    (by norm_num [envAllFail]) rfl rfl rfl
  rw [h]
  rfl

/-- C9: whenever the produced point is tagged `dexscreener_candles`, its
native price equals its USD price, both being the close value of the
selected candle, so the candle path never reports a genuinely
native-denominated price. -/
theorem c9_candle_native_equals_usd (env : Env) (pair : Pair) (t : ℚ)
    (h : (get_price_at_time env pair t).1.data_source = "dexscreener_candles") :
    (get_price_at_time env pair t).1.price_native =
      (get_price_at_time env pair t).1.price_usd ∧
    ∃ l c, env.candles = some l ∧ c ∈ l ∧
      (get_price_at_time env pair t).1.price_usd = c.close := by
  by_cases hfut : t > env.now
  · rw [gpat_future env pair t hfut] at h
    exact absurd (show "future_date" = "dexscreener_candles" from h) (by decide)
  · rcases hq : (cmcStep env).1 with _ | q
    · cases htr : (strTruthy pair.pairAddress && strTruthy pair.chainId) with
      | false =>
        rw [gpat_no_pair_fields env pair t hfut hq htr] at h
        exact absurd (show "dexscreener_current" = "dexscreener_candles" from h)
          (by decide)
      | true =>
        rcases hcand : candleResult env pair t with _ | pp
        · rcases hhist : historyResult env pair t with _ | pp
          · rw [gpat_current env pair t hfut hq htr hcand hhist] at h
            exact absurd
              (show "dexscreener_current" = "dexscreener_candles" from h)
              (by decide)
          · rw [gpat_history env pair t pp hfut hq htr hcand hhist] at h
            obtain ⟨l, c, _, _, _, _, hpp⟩ :=
              historyResult_eq_some env pair t pp hhist
            rw [hpp] at h
            exact absurd
              (show "dexscreener_historical" = "dexscreener_candles" from h)
              (by decide)
        · obtain ⟨l, c, hl, hm, _, _, hpp⟩ :=
            candleResult_eq_some env pair t pp hcand
          rw [gpat_candle env pair t pp hfut hq htr hcand]
          constructor
          · rw [hpp]
          · exact ⟨l, c, hl, hm, by rw [hpp]⟩
    · rw [gpat_cmc_some env pair t q hfut hq] at h
      exact absurd (show "coinmarketcap" = "dexscreener_candles" from h)
        (by decide)

/-- C9 witness: at the concrete candle environment the result is tagged
`dexscreener_candles`, its native price equals its USD price, and both
are the close 42 of the selected candle. -/
theorem c9_candle_native_equals_usd_witness :
    (get_price_at_time envC7 pairK 100000).1.data_source =
      "dexscreener_candles" ∧
    (get_price_at_time envC7 pairK 100000).1.price_native =
      (get_price_at_time envC7 pairK 100000).1.price_usd ∧
    (get_price_at_time envC7 pairK 100000).1.price_usd = some 42 := by
  have hcand : candleResult envC7 pairK 100000 = some ppC7 := by
    norm_num [candleResult, envC7, pairK, ppC7, scanClosest, absQ,
      cand20h, cand11h, cand1h]
  have hg := gpat_candle envC7 pairK 100000 ppC7 (by norm_num [envC7]) rfl
    (by decide) hcand
  have hsrc : (get_price_at_time envC7 pairK 100000).1.data_source =
      "dexscreener_candles" := by
    rw [hg]
    rfl
  have h2 := c9_candle_native_equals_usd envC7 pairK 100000 hsrc
  refine ⟨hsrc, h2.1, ?_⟩
  rw [hg]
  rfl
